import Mathlib

/-!
Verification of the `dynamic-matrix` repository: a growable, row-major,
two-dimensional array container (`DynamicMatrix<T>`) over a generic element
type, stored as a single contiguous buffer (`Vec<T>`) together with a column
count.  Rows are derived: `rows() = buffer.length / cols`.

This file gives a shallow embedding of the data model and the operations of
`src/dynamic/row_major.rs` and `src/errors/{shape_error,indexing_error}.rs`:
the Rust `Vec<T>` buffer becomes a Lean `List T`, `usize` becomes `Nat`,
fallible operations return `Except`, and `&mut self` methods are modelled by
returning the successor state explicitly.
-/

namespace DynMat

/-- Embedding of `ShapeError` (src/errors/shape_error.rs): records the shape
of the matrix (`rows`, `cols`) and the expected shape (`expected_rows`,
`expected_cols`); the two named constructors below fill the unused dimension
with 0. -/
structure ShapeError where
  rows : Nat
  cols : Nat
  expected_rows : Nat
  expected_cols : Nat
deriving DecidableEq, Repr

/-- Embedding of `ShapeError::new`: takes the shape of the matrix and the
expected shape. -/
def ShapeError.new (shape : Nat × Nat) (expected_shape : Nat × Nat) : ShapeError :=
  ⟨shape.1, shape.2, expected_shape.1, expected_shape.2⟩

/-- Embedding of `ShapeError::new_rows_error`: takes the rows of the matrix
and the expected rows; the column fields are set to 0. -/
def ShapeError.new_rows_error (rows expected_rows : Nat) : ShapeError :=
  ⟨rows, 0, expected_rows, 0⟩

/-- Embedding of `ShapeError::new_cols_error`: takes the columns of the matrix
and the expected columns; the row fields are set to 0. -/
def ShapeError.new_cols_error (cols expected_cols : Nat) : ShapeError :=
  ⟨0, cols, 0, expected_cols⟩

/-- Embedding of `IndexingError` (src/errors/indexing_error.rs): records the
requested `(row, col)` index and the shape `(nrows, ncols)` of the matrix
being indexed. -/
structure IndexingError where
  row : Nat
  col : Nat
  nrows : Nat
  ncols : Nat
deriving DecidableEq, Repr

/-- Embedding of `IndexingError::new`: takes the index as a (row, column)
tuple and the shape of the matrix being indexed. -/
def IndexingError.new (index : Nat × Nat) (shape : Nat × Nat) : IndexingError :=
  ⟨index.1, index.2, shape.1, shape.2⟩

/-- Embedding of `DynamicMatrix<T>` (src/dynamic/row_major.rs): a `Vec<T>`
buffer in row-major order plus a column count.  The buffer is modelled by its
element sequence; the reserved capacity of the `Vec` is not observable through
any of the operations embedded here (a separate refinement,
`DynamicMatrixCap`, tracks it for the `len`/`capacity` queries). -/
structure DynamicMatrix (T : Type) where
  data : List T
  cols : Nat
deriving DecidableEq, Repr

namespace DynamicMatrix

variable {T : Type}

/-- Embedding of `DynamicMatrix::new_with_cols`: an empty matrix with a set
number of columns. -/
def new_with_cols (cols : Nat) : DynamicMatrix T :=
  ⟨[], cols⟩

/-- Embedding of `DynamicMatrix::rows`: `self.data.len() / self.cols()`
(integer division). -/
def rows (m : DynamicMatrix T) : Nat :=
  m.data.length / m.cols

/-- Embedding of `DynamicMatrix::shape`: the (rows, cols) pair. -/
def shape (m : DynamicMatrix T) : Nat × Nat :=
  (m.rows, m.cols)

/-- Embedding of `DynamicMatrix::push_row`: if the supplied row's length
differs from `cols()`, fail with `ShapeError::new_cols_error(self.cols(),
row.len())` and leave the matrix untouched; otherwise extend the buffer with
the row's elements.  The pair returns the `Result` together with the matrix
state after the call (the Rust method mutates `&mut self`). -/
def push_row (m : DynamicMatrix T) (row : List T) :
    Except ShapeError Unit × DynamicMatrix T :=
  if row.length ≠ m.cols then
    (Except.error (ShapeError.new_cols_error m.cols row.length), m)
  else
    (Except.ok (), ⟨m.data ++ row, m.cols⟩)

/-- Embedding of the insertion loop inside `DynamicMatrix::push_col`:
`for (i, e) in col.into_iter().enumerate()
   { self.data.insert(self.cols() + self.cols() * i + i, e); }`.
`cols` is the field value throughout the loop (it is only incremented after
the loop ends), `i` is the enumeration index. -/
def push_col_loop (cols : Nat) : List T → List T → Nat → List T
  | data, [], _ => data
  | data, e :: rest, i =>
      push_col_loop cols (data.insertIdx (cols + cols * i + i) e) rest (i + 1)

/-- Embedding of `DynamicMatrix::push_col`: if the supplied column's length
differs from `rows()`, fail with `ShapeError::new_rows_error(self.rows(),
col.len())` and leave the matrix untouched; otherwise insert each element at
`self.cols() + self.cols() * i + i` in enumeration order and then increment
`cols` by one. -/
def push_col (m : DynamicMatrix T) (col : List T) :
    Except ShapeError Unit × DynamicMatrix T :=
  if col.length ≠ m.rows then
    (Except.error (ShapeError.new_rows_error m.rows col.length), m)
  else
    (Except.ok (), ⟨push_col_loop m.cols m.data col 0, m.cols + 1⟩)

/-- Embedding of `DynamicMatrix::into_boxed_slice`: decomposes the matrix into
its element sequence (the boxed slice of the underlying `Vec`) and the column
count. -/
def into_boxed_slice (m : DynamicMatrix T) : List T × Nat :=
  (m.data, m.cols)

/-- Embedding of `DynamicMatrix::from_boxed_slice`: builds a matrix from an
element sequence and a column count, with no validation. -/
def from_boxed_slice (boxed_slice : List T) (cols : Nat) : DynamicMatrix T :=
  ⟨boxed_slice, cols⟩

/-- Embedding of `DynamicMatrix::get`: if `row < rows() && col < cols()`, look
up offset `row * cols() + col` in the buffer (the `None` arm of that lookup is
`unreachable!()` in the source, modelled here by the outer `none`); otherwise
return `IndexingError::new(index, shape())`. -/
def get (m : DynamicMatrix T) (index : Nat × Nat) :
    Option (Except IndexingError T) :=
  let (row, col) := index
  if row < m.rows ∧ col < m.cols then
    (m.data.get? (row * m.cols + col)).map Except.ok
  else
    some (Except.error (IndexingError.new index m.shape))

/-- Embedding of `DynamicMatrix::get_mut`: same bounds check and offset
computation as `get` (the source binds `cols` before the check and otherwise
mirrors `get`); the exclusive reference is modelled by the element it points
at. -/
def get_mut (m : DynamicMatrix T) (index : Nat × Nat) :
    Option (Except IndexingError T) :=
  let (row, col) := index
  let cols := m.cols
  if row < m.rows ∧ col < m.cols then
    (m.data.get? (row * cols + col)).map Except.ok
  else
    some (Except.error (IndexingError.new index m.shape))

end DynamicMatrix

/-- A single structural mutation of a `DynamicMatrix`: a `push_row` or a
`push_col` with the supplied sequence. -/
inductive MatOp (T : Type) where
  | row (v : List T) : MatOp T
  | col (v : List T) : MatOp T

/-- Applies one operation to a matrix, keeping the post-state whether the
operation succeeded or failed (a failed push leaves the matrix as it was). -/
def applyOp (m : DynMat.DynamicMatrix T) (op : MatOp T) : DynMat.DynamicMatrix T :=
  match op with
  | MatOp.row v => (m.push_row v).2
  | MatOp.col v => (m.push_col v).2

/-- Applies a sequence of operations in order. -/
def applyOps (m : DynMat.DynamicMatrix T) (ops : List (MatOp T)) : DynMat.DynamicMatrix T :=
  ops.foldl applyOp m

/-- Generic "insert each incoming element at a prescribed offset" process,
written from the spec's words for the column-append claim: the i-th incoming
element (0-indexed) is inserted at linear buffer offset `f i`, insertions
performed in row order.  Used to compare the claimed offset formula against
the code's loop. -/
def insertAtOffsets (f : Nat → Nat) : List T → List T → Nat → List T
  | data, [], _ => data
  | data, e :: rest, i => insertAtOffsets f (data.insertIdx (f i) e) rest (i + 1)

/-- Refinement of the buffer that also tracks the `Vec`'s reserved capacity,
for the two queries of the source that read it.  `cap` stands for
`self.data.capacity()`; the element sequence and column count are as in
`DynamicMatrix`. -/
structure DynamicMatrixCap (T : Type) where
  data : List T
  cap : Nat
  cols : Nat

namespace DynamicMatrixCap

variable {T : Type}

/-- Embedding of `DynamicMatrix::with_capacity`: zero rows, column count
`shape.1`, and a buffer with capacity reserved for `shape.0 * shape.1`
elements (`Vec::with_capacity(shape.0 * shape.1)`). -/
def with_capacity (shape : Nat × Nat) : DynamicMatrixCap T :=
  ⟨[], shape.1 * shape.2, shape.2⟩

/-- Embedding of `DynamicMatrix::rows` on the capacity-tracking refinement. -/
def rows (m : DynamicMatrixCap T) : Nat :=
  m.data.length / m.cols

/-- Embedding of `DynamicMatrix::len`: the body is `self.data.capacity()`. -/
def len (m : DynamicMatrixCap T) : Nat :=
  m.cap

/-- Embedding of `DynamicMatrix::capacity`: `self.data.capacity()`. -/
def capacity (m : DynamicMatrixCap T) : Nat :=
  m.cap

end DynamicMatrixCap

end DynMat

namespace DynMat

/-! Helper lemmas about the column-insertion loop. -/

/-- The insertion loop of `push_col` and the generic offset-driven insertion
process agree when the offset function is `fun i => cols + i * (cols + 1)`:
the loop's index expression `cols + cols * i + i` is that offset. -/
theorem push_col_loop_eq_insertAtOffsets {T : Type} (cols : Nat) (col : List T) :
    ∀ (data : List T) (i : Nat),
      DynamicMatrix.push_col_loop cols data col i
        = insertAtOffsets (fun j => cols + j * (cols + 1)) data col i := by
  induction col with
  | nil => intro data i; rfl
  | cons e rest ih =>
      intro data i
      show DynamicMatrix.push_col_loop cols (data.insertIdx (cols + cols * i + i) e) rest (i + 1)
        = insertAtOffsets (fun j => cols + j * (cols + 1))
            (data.insertIdx (cols + i * (cols + 1)) e) rest (i + 1)
      rw [show cols + cols * i + i = cols + i * (cols + 1) from by ring]
      exact ih _ _

/-- Length of the buffer after the insertion loop: each element is inserted at
an in-range index, so the length grows by the number of inserted elements.
The side condition bounds the largest insertion index by the buffer length. -/
theorem push_col_loop_length {T : Type} (cols : Nat) :
    ∀ (col : List T) (i : Nat) (data : List T),
      cols * (i + col.length) + i ≤ data.length →
      (DynamicMatrix.push_col_loop cols data col i).length = data.length + col.length := by
  intro col
  induction col with
  | nil => intro i data _; rfl
  | cons e rest ih =>
      intro i data h
      simp only [List.length_cons] at h
      have hidx : cols + cols * i + i ≤ data.length := by
        refine le_trans ?_ h
        have h1 : cols * (i + 1) ≤ cols * (i + (rest.length + 1)) :=
          Nat.mul_le_mul_left cols (by omega)
        calc cols + cols * i + i = cols * (i + 1) + i := by ring
          _ ≤ cols * (i + (rest.length + 1)) + i := Nat.add_le_add_right h1 i
      have hlen : (data.insertIdx (cols + cols * i + i) e).length = data.length + 1 :=
        List.length_insertIdx _ _ hidx
      show (DynamicMatrix.push_col_loop cols (data.insertIdx (cols + cols * i + i) e)
              rest (i + 1)).length = data.length + (rest.length + 1)
      rw [ih (i + 1) _ (by
        rw [hlen, show cols * ((i + 1) + rest.length) + (i + 1)
              = (cols * (i + (rest.length + 1)) + i) + 1 from by ring]
        exact Nat.add_le_add_right h 1), hlen]
      ring

/-- C1 counterexample: pushing a row of length 4 into an (empty) matrix with
`cols() == 3` produces `ShapeError::new_cols_error(3, 4)`, whose
`expected_cols` field is the supplied length 4 — not 3 as the claim states —
and whose matrix-shape field `cols` is 3. -/
theorem C1_counterexample :
    (DynamicMatrix.push_row (⟨[], 3⟩ : DynamicMatrix Nat) [1, 2, 3, 4]).1
      = Except.error (ShapeError.new_cols_error 3 4)
    ∧ (ShapeError.new_cols_error 3 4).expected_cols = 4
    ∧ (ShapeError.new_cols_error 3 4).expected_cols ≠ 3
    ∧ (ShapeError.new_cols_error 3 4).cols = 3 :=
  ⟨rfl, rfl, by decide, rfl⟩

/-- C1 (amended): a failing `push_row` returns
`ShapeError::new_cols_error(self.cols(), row.len())`, so the error's
matrix-shape field (`cols`) holds the matrix's current `cols()` and its
`expected_cols` field holds the supplied sequence's length; a failing
`push_col` likewise returns `ShapeError::new_rows_error(self.rows(),
col.len())` with `rows` the matrix's `rows()` and `expected_rows` the
supplied length. -/
theorem C1_error_payload {T : Type} (m : DynamicMatrix T) (v w : List T) :
    (v.length ≠ m.cols →
      (m.push_row v).1 = Except.error (ShapeError.new_cols_error m.cols v.length)
      ∧ (ShapeError.new_cols_error m.cols v.length).cols = m.cols
      ∧ (ShapeError.new_cols_error m.cols v.length).expected_cols = v.length)
    ∧ (w.length ≠ m.rows →
      (m.push_col w).1 = Except.error (ShapeError.new_rows_error m.rows w.length)
      ∧ (ShapeError.new_rows_error m.rows w.length).rows = m.rows
      ∧ (ShapeError.new_rows_error m.rows w.length).expected_rows = w.length) := by
  constructor
  · intro h
    exact ⟨by simp [DynamicMatrix.push_row, if_pos h], rfl, rfl⟩
  · intro h
    exact ⟨by simp [DynamicMatrix.push_col, if_pos h], rfl, rfl⟩

/-- C1 witness: the amended statement at the concrete inputs of the claim's
example (row `[1,2,3,4]` against `cols()==3`) and a column `[9]` against a
zero-row matrix. -/
theorem C1_witness :
    ((DynamicMatrix.push_row (⟨[], 3⟩ : DynamicMatrix Nat) [1, 2, 3, 4]).1
        = Except.error (ShapeError.new_cols_error 3 4)
      ∧ (ShapeError.new_cols_error 3 4).cols = 3
      ∧ (ShapeError.new_cols_error 3 4).expected_cols = 4)
    ∧ ((DynamicMatrix.push_col (⟨[], 3⟩ : DynamicMatrix Nat) [9]).1
        = Except.error (ShapeError.new_rows_error 0 1)
      ∧ (ShapeError.new_rows_error 0 1).rows = 0
      ∧ (ShapeError.new_rows_error 0 1).expected_rows = 1) :=
  ⟨(C1_error_payload ⟨[], 3⟩ [1, 2, 3, 4] [9]).1 (by decide),
   (C1_error_payload (⟨[], 3⟩ : DynamicMatrix Nat) [1, 2, 3, 4] [9]).2 (by decide)⟩

/-- C2 counterexample: on the matrix with buffer `[1, 3]` and `cols() == 1`,
`push_col [2, 4]` succeeds and yields buffer `[1, 2, 3, 4]`, but inserting the
i-th element at the claimed offsets `cols() + i*(cols()+1) + i` (in row order)
yields `[1, 2, 3]` instead: the claimed offset for i = 1 is 4, past the end of
the intermediate buffer `[1, 2, 3]`. -/
theorem C2_counterexample :
    (DynamicMatrix.push_col (⟨[1, 3], 1⟩ : DynamicMatrix Nat) [2, 4]).1 = Except.ok ()
    ∧ (DynamicMatrix.push_col (⟨[1, 3], 1⟩ : DynamicMatrix Nat) [2, 4]).2.data
        = [1, 2, 3, 4]
    ∧ insertAtOffsets (fun i => 1 + i * (1 + 1) + i) ([1, 3] : List Nat) [2, 4] 0
        = [1, 2, 3]
    ∧ (DynamicMatrix.push_col (⟨[1, 3], 1⟩ : DynamicMatrix Nat) [2, 4]).2.data
        ≠ insertAtOffsets (fun i => 1 + i * (1 + 1) + i) ([1, 3] : List Nat) [2, 4] 0 :=
  ⟨rfl, rfl, rfl, by decide⟩

/-- C2 (amended): a successful `push_col` inserts the i-th incoming element
(0-indexed) at linear buffer offset `cols() + i*(cols()+1)` (the code's
`self.cols() + self.cols()*i + i`), computed against the column count before
it is incremented, performing the insertions in row order, and then increments
`cols()` by one. -/
theorem C2_push_col_offsets {T : Type} (m : DynamicMatrix T) (col : List T)
    (h : col.length = m.rows) :
    (m.push_col col).1 = Except.ok ()
    ∧ (m.push_col col).2.data
        = insertAtOffsets (fun i => m.cols + i * (m.cols + 1)) m.data col 0
    ∧ (m.push_col col).2.cols = m.cols + 1 := by
  have hcond : ¬ col.length ≠ m.rows := by simp [h]
  simp only [DynamicMatrix.push_col, if_neg hcond]
  exact ⟨trivial, push_col_loop_eq_insertAtOffsets m.cols col m.data 0, trivial⟩

/-- C2 witness: the amended statement at the spec's own example, buffer
`[1,2,4,5,7,8]` with `cols() == 2` and incoming column `[3,6,9]`. -/
theorem C2_witness :
    (DynamicMatrix.push_col (⟨[1, 2, 4, 5, 7, 8], 2⟩ : DynamicMatrix Nat) [3, 6, 9]).1
      = Except.ok ()
    ∧ (DynamicMatrix.push_col (⟨[1, 2, 4, 5, 7, 8], 2⟩ : DynamicMatrix Nat) [3, 6, 9]).2.data
        = insertAtOffsets (fun i => 2 + i * (2 + 1)) ([1, 2, 4, 5, 7, 8] : List Nat) [3, 6, 9] 0
    ∧ (DynamicMatrix.push_col (⟨[1, 2, 4, 5, 7, 8], 2⟩ : DynamicMatrix Nat) [3, 6, 9]).2.cols
        = 3 :=
  C2_push_col_offsets ⟨[1, 2, 4, 5, 7, 8], 2⟩ [3, 6, 9] (by decide)

/-- C5: starting from the matrix with rows `[1,2],[4,5],[7,8]` (`cols()==2`),
`push_col [3,6,9]` succeeds and afterwards the flat buffer is
`[1,2,3,4,5,6,7,8,9]` and `cols() == 3`. -/
theorem C5_push_col_example :
    (DynamicMatrix.push_col (⟨[1, 2, 4, 5, 7, 8], 2⟩ : DynamicMatrix Nat) [3, 6, 9]).1
      = Except.ok ()
    ∧ (DynamicMatrix.push_col (⟨[1, 2, 4, 5, 7, 8], 2⟩ : DynamicMatrix Nat) [3, 6, 9]).2.data
        = [1, 2, 3, 4, 5, 6, 7, 8, 9]
    ∧ (DynamicMatrix.push_col (⟨[1, 2, 4, 5, 7, 8], 2⟩ : DynamicMatrix Nat) [3, 6, 9]).2.cols
        = 3 :=
  ⟨rfl, rfl, rfl⟩

/-- C7: whenever `push_row` or `push_col` returns a `ShapeError`, the matrix
after the call is identical to the matrix before it — buffer contents, buffer
length and `cols()` included (no partial mutation). -/
theorem C7_failed_push_unchanged {T : Type} (m : DynamicMatrix T) (v : List T) :
    (∀ e : ShapeError, (m.push_row v).1 = Except.error e → (m.push_row v).2 = m)
    ∧ (∀ e : ShapeError, (m.push_col v).1 = Except.error e → (m.push_col v).2 = m) := by
  constructor
  · intro e he
    by_cases h : v.length ≠ m.cols
    · simp [DynamicMatrix.push_row, if_pos h]
    · simp [DynamicMatrix.push_row, if_neg h] at he
  · intro e he
    by_cases h : v.length ≠ m.rows
    · simp [DynamicMatrix.push_col, if_pos h]
    · simp [DynamicMatrix.push_col, if_neg h] at he

/-- C7 witness: a failing `push_row` and a failing `push_col` on the empty
3-column matrix each leave it exactly as it was. -/
theorem C7_witness :
    (DynamicMatrix.push_row (⟨[], 3⟩ : DynamicMatrix Nat) [1]).2 = ⟨[], 3⟩
    ∧ (DynamicMatrix.push_col (⟨[], 3⟩ : DynamicMatrix Nat) [1]).2 = ⟨[], 3⟩ :=
  ⟨(C7_failed_push_unchanged (⟨[], 3⟩ : DynamicMatrix Nat) [1]).1
      (ShapeError.new_cols_error 3 1) rfl,
   (C7_failed_push_unchanged (⟨[], 3⟩ : DynamicMatrix Nat) [1]).2
      (ShapeError.new_rows_error 0 1) rfl⟩

/-- C9: detaching a matrix through `into_boxed_slice` and re-attaching the
returned buffer and column count through `from_boxed_slice` yields a matrix
with the same shape and the same flat element sequence as the original. -/
theorem C9_boxed_slice_roundtrip {T : Type} (m : DynamicMatrix T) (hc : 0 < m.cols) :
    (DynamicMatrix.from_boxed_slice m.into_boxed_slice.1 m.into_boxed_slice.2).shape
      = m.shape
    ∧ (DynamicMatrix.from_boxed_slice m.into_boxed_slice.1 m.into_boxed_slice.2).data
      = m.data :=
  ⟨rfl, rfl⟩

/-- C9 witness: the round trip at the concrete 1x3 matrix `[[1,2,3]]`. -/
theorem C9_witness :
    (DynamicMatrix.from_boxed_slice
        (⟨[1, 2, 3], 3⟩ : DynamicMatrix Nat).into_boxed_slice.1
        (⟨[1, 2, 3], 3⟩ : DynamicMatrix Nat).into_boxed_slice.2).shape
      = (⟨[1, 2, 3], 3⟩ : DynamicMatrix Nat).shape
    ∧ (DynamicMatrix.from_boxed_slice
        (⟨[1, 2, 3], 3⟩ : DynamicMatrix Nat).into_boxed_slice.1
        (⟨[1, 2, 3], 3⟩ : DynamicMatrix Nat).into_boxed_slice.2).data
      = (⟨[1, 2, 3], 3⟩ : DynamicMatrix Nat).data :=
  C9_boxed_slice_roundtrip ⟨[1, 2, 3], 3⟩ (by decide)

/-- C10: the query `len()` returns the reserved capacity of the underlying
buffer (its body is `self.data.capacity()`), the same value `capacity()`
returns; consequently, when the reserved capacity exceeds the number of
stored elements `rows() * cols()`, `len()` is strictly greater than
`rows() * cols()`. -/
theorem C10_len_is_capacity {T : Type} (m : DynamicMatrixCap T) :
    m.len = m.capacity
    ∧ (m.rows * m.cols < m.capacity → m.rows * m.cols < m.len) :=
  ⟨rfl, fun h => h⟩

/-- C10 witness: `with_capacity (3, 3)` reserves capacity 9 while holding 0
elements, so `len()` equals `capacity()` and strictly exceeds
`rows() * cols() = 0`. -/
theorem C10_witness :
    (DynamicMatrixCap.with_capacity (3, 3) : DynamicMatrixCap Nat).len
      = (DynamicMatrixCap.with_capacity (3, 3) : DynamicMatrixCap Nat).capacity
    ∧ (DynamicMatrixCap.with_capacity (3, 3) : DynamicMatrixCap Nat).rows
        * (DynamicMatrixCap.with_capacity (3, 3) : DynamicMatrixCap Nat).cols
      < (DynamicMatrixCap.with_capacity (3, 3) : DynamicMatrixCap Nat).len :=
  ⟨(C10_len_is_capacity (DynamicMatrixCap.with_capacity (3, 3))).1,
   (C10_len_is_capacity (DynamicMatrixCap.with_capacity (3, 3))).2 (by decide)⟩

/-- C6: for a matrix with `cols() == k > 0` and a row of length exactly k,
`push_row` succeeds, leaves `cols()` unchanged, increases `rows()` by exactly
one, leaves every previously stored element unchanged in place, and appends
the new row's elements in order as the last k elements of the flat buffer. -/
theorem C6_push_row_success {T : Type} (m : DynamicMatrix T) (row : List T)
    (hc : 0 < m.cols) (h : row.length = m.cols) :
    (m.push_row row).1 = Except.ok ()
    ∧ (m.push_row row).2.cols = m.cols
    ∧ (m.push_row row).2.rows = m.rows + 1
    ∧ (m.push_row row).2.data = m.data ++ row
    ∧ (m.push_row row).2.data.take m.data.length = m.data
    ∧ (m.push_row row).2.data.drop m.data.length = row := by
  have hcond : ¬ row.length ≠ m.cols := by simp [h]
  simp only [DynamicMatrix.push_row, if_neg hcond]
  refine ⟨trivial, trivial, ?_, trivial, List.take_left m.data row, List.drop_left m.data row⟩
  show (m.data ++ row).length / m.cols = m.data.length / m.cols + 1
  rw [List.length_append, h]
  exact Nat.add_div_right m.data.length hc

/-- C6 witness: appending row `[4,5,6]` to the 1x3 matrix `[[1,2,3]]`. -/
theorem C6_witness :
    (DynamicMatrix.push_row (⟨[1, 2, 3], 3⟩ : DynamicMatrix Nat) [4, 5, 6]).1
      = Except.ok ()
    ∧ (DynamicMatrix.push_row (⟨[1, 2, 3], 3⟩ : DynamicMatrix Nat) [4, 5, 6]).2.cols = 3
    ∧ (DynamicMatrix.push_row (⟨[1, 2, 3], 3⟩ : DynamicMatrix Nat) [4, 5, 6]).2.rows = 2
    ∧ (DynamicMatrix.push_row (⟨[1, 2, 3], 3⟩ : DynamicMatrix Nat) [4, 5, 6]).2.data
        = [1, 2, 3] ++ [4, 5, 6]
    ∧ (DynamicMatrix.push_row (⟨[1, 2, 3], 3⟩ : DynamicMatrix Nat) [4, 5, 6]).2.data.take 3
        = [1, 2, 3]
    ∧ (DynamicMatrix.push_row (⟨[1, 2, 3], 3⟩ : DynamicMatrix Nat) [4, 5, 6]).2.data.drop 3
        = [4, 5, 6] :=
  C6_push_row_success ⟨[1, 2, 3], 3⟩ [4, 5, 6] (by decide) (by decide)

/-- C4: `get` (and `get_mut`) returns `Ok` with the element at linear offset
`row * cols() + col` exactly when `row < rows()` and `col < cols()`; otherwise
it returns an `IndexingError` recording the requested `(row, col)` and the
matrix's shape `(rows(), cols())` — so an index with both coordinates out of
range carries both violations. -/
theorem C4_get_spec {T : Type} (m : DynamicMatrix T) (row col : Nat)
    (hc : 0 < m.cols) :
    (∀ h : row < m.rows ∧ col < m.cols,
      ∃ hlt : row * m.cols + col < m.data.length,
        m.get (row, col) = some (Except.ok (m.data.get ⟨row * m.cols + col, hlt⟩))
        ∧ m.get_mut (row, col) = some (Except.ok (m.data.get ⟨row * m.cols + col, hlt⟩)))
    ∧ (¬ (row < m.rows ∧ col < m.cols) →
      m.get (row, col) = some (Except.error (IndexingError.new (row, col) (m.rows, m.cols)))
      ∧ m.get_mut (row, col)
          = some (Except.error (IndexingError.new (row, col) (m.rows, m.cols)))
      ∧ (IndexingError.new (row, col) (m.rows, m.cols)).row = row
      ∧ (IndexingError.new (row, col) (m.rows, m.cols)).col = col
      ∧ (IndexingError.new (row, col) (m.rows, m.cols)).nrows = m.rows
      ∧ (IndexingError.new (row, col) (m.rows, m.cols)).ncols = m.cols) := by
  constructor
  · intro h
    have hlt : row * m.cols + col < m.data.length := by
      have h1 : row + 1 ≤ m.data.length / m.cols := h.1
      have h2 : (row + 1) * m.cols ≤ (m.data.length / m.cols) * m.cols :=
        Nat.mul_le_mul_right m.cols h1
      have h3 : (m.data.length / m.cols) * m.cols ≤ m.data.length :=
        Nat.div_mul_le_self _ _
      calc row * m.cols + col < row * m.cols + m.cols := Nat.add_lt_add_left h.2 _
        _ = (row + 1) * m.cols := by ring
        _ ≤ m.data.length := le_trans h2 h3
    refine ⟨hlt, ?_, ?_⟩
    · simp only [DynamicMatrix.get, if_pos h]
      rw [List.get?_eq_get hlt]
      rfl
    · simp only [DynamicMatrix.get_mut, if_pos h]
      rw [List.get?_eq_get hlt]
      rfl
  · intro h
    exact ⟨by simp only [DynamicMatrix.get, if_neg h]; rfl,
      by simp only [DynamicMatrix.get_mut, if_neg h]; rfl, rfl, rfl, rfl, rfl⟩

/-- C4 witness: on the 3x3 matrix `[1..9]` with `cols() == 3`, the in-bounds
index (1, 2) yields the element at offset 5 and the out-of-bounds index (3, 3)
yields the `IndexingError` carrying nrows = 3 and ncols = 3 in both `get` and
`get_mut`. -/
theorem C4_witness :
    ((⟨[1, 2, 3, 4, 5, 6, 7, 8, 9], 3⟩ : DynamicMatrix Nat).get (3, 3)
      = some (Except.error (IndexingError.new (3, 3) (3, 3)))
    ∧ (⟨[1, 2, 3, 4, 5, 6, 7, 8, 9], 3⟩ : DynamicMatrix Nat).get_mut (3, 3)
      = some (Except.error (IndexingError.new (3, 3) (3, 3)))
    ∧ (IndexingError.new ((3 : Nat), (3 : Nat)) (3, 3)).row = 3
    ∧ (IndexingError.new ((3 : Nat), (3 : Nat)) (3, 3)).col = 3
    ∧ (IndexingError.new ((3 : Nat), (3 : Nat)) (3, 3)).nrows = 3
    ∧ (IndexingError.new ((3 : Nat), (3 : Nat)) (3, 3)).ncols = 3)
    ∧ ∃ hlt : 1 * 3 + 2 < ([1, 2, 3, 4, 5, 6, 7, 8, 9] : List Nat).length,
        (⟨[1, 2, 3, 4, 5, 6, 7, 8, 9], 3⟩ : DynamicMatrix Nat).get (1, 2)
          = some (Except.ok (([1, 2, 3, 4, 5, 6, 7, 8, 9] : List Nat).get ⟨1 * 3 + 2, hlt⟩)) :=
  ⟨(C4_get_spec (⟨[1, 2, 3, 4, 5, 6, 7, 8, 9], 3⟩ : DynamicMatrix Nat) 3 3
      (by decide)).2 (by decide),
   by
    obtain ⟨hlt, hget, _⟩ :=
      (C4_get_spec (⟨[1, 2, 3, 4, 5, 6, 7, 8, 9], 3⟩ : DynamicMatrix Nat) 1 2
        (by decide)).1 (by decide)
    exact ⟨hlt, hget⟩⟩

/-- C8: on a matrix with `rows() == 0`, `cols() > 0` and the shape invariant
I1 (`cols()` divides the buffer length), `push_col` succeeds exactly when the
supplied column is empty, and the successful empty-column push leaves the
buffer empty while incrementing `cols()` by one. -/
theorem C8_zero_rows_push_col {T : Type} (m : DynamicMatrix T) (col : List T)
    (hc : 0 < m.cols) (hdvd : m.cols ∣ m.data.length) (hr : m.rows = 0) :
    ((m.push_col col).1 = Except.ok () ↔ col = [])
    ∧ (m.push_col []).2.data = []
    ∧ (m.push_col []).2.cols = m.cols + 1 := by
  have hdata : m.data = [] := by
    obtain ⟨k, hk⟩ := hdvd
    have hkz : k = 0 := by
      have : m.data.length / m.cols = k := by
        rw [hk]; exact Nat.mul_div_cancel_left k hc
      rw [DynamicMatrix.rows, this] at hr
      exact hr
    exact List.length_eq_zero.mp (by rw [hk, hkz, Nat.mul_zero])
  have hempty : (m.push_col []).1 = Except.ok ()
      ∧ (m.push_col []).2.data = [] ∧ (m.push_col []).2.cols = m.cols + 1 := by
    have hcond : ¬ ([] : List T).length ≠ m.rows := by simp [hr]
    simp only [DynamicMatrix.push_col, if_neg hcond]
    exact ⟨trivial, by rw [hdata]; rfl, trivial⟩
  refine ⟨⟨fun hok => ?_, fun he => he ▸ hempty.1⟩, hempty.2.1, hempty.2.2⟩
  by_cases h : col.length ≠ m.rows
  · rw [DynamicMatrix.push_col, if_pos h] at hok
    exact absurd hok (by simp)
  · rw [hr] at h
    exact List.length_eq_zero.mp (by omega)

/-- C8 witness: the empty 2-column matrix rejects the column `[5]` and
accepts the empty column, growing `cols()` to 3 with the buffer still
empty. -/
theorem C8_witness :
    (((⟨[], 2⟩ : DynamicMatrix Nat).push_col [5]).1 = Except.ok () ↔ ([5] : List Nat) = [])
    ∧ ((⟨[], 2⟩ : DynamicMatrix Nat).push_col []).2.data = []
    ∧ ((⟨[], 2⟩ : DynamicMatrix Nat).push_col []).2.cols = 3 :=
  C8_zero_rows_push_col (⟨[], 2⟩ : DynamicMatrix Nat) [5] (by decide) ⟨0, rfl⟩ rfl

/-- Preservation lemma for the shape invariant: one `push_row` or `push_col`,
successful or not, keeps `cols()` positive and keeps `cols()` a divisor of the
buffer length. -/
theorem applyOp_invariant {T : Type} (m : DynamicMatrix T) (op : MatOp T)
    (h1 : 0 < m.cols) (h2 : m.cols ∣ m.data.length) :
    0 < (applyOp m op).cols ∧ (applyOp m op).cols ∣ (applyOp m op).data.length := by
  cases op with
  | row v =>
      show 0 < (m.push_row v).2.cols ∧ (m.push_row v).2.cols ∣ (m.push_row v).2.data.length
      by_cases h : v.length ≠ m.cols
      · simp only [DynamicMatrix.push_row, if_pos h]
        exact ⟨h1, h2⟩
      · have hv : v.length = m.cols := by omega
        simp only [DynamicMatrix.push_row, if_neg h, List.length_append]
        exact ⟨h1, dvd_add h2 (hv ▸ dvd_refl v.length)⟩
  | col v =>
      show 0 < (m.push_col v).2.cols ∧ (m.push_col v).2.cols ∣ (m.push_col v).2.data.length
      by_cases h : v.length ≠ m.rows
      · simp only [DynamicMatrix.push_col, if_pos h]
        exact ⟨h1, h2⟩
      · have hv : v.length = m.rows := by omega
        obtain ⟨k, hk⟩ := h2
        have hdivk : m.data.length / m.cols = k := by
          rw [hk]; exact Nat.mul_div_cancel_left k h1
        have hvk : v.length = k := by rw [hv, DynamicMatrix.rows, hdivk]
        have hlen : (DynamicMatrix.push_col_loop m.cols m.data v 0).length
            = m.data.length + v.length := by
          refine push_col_loop_length m.cols v 0 m.data ?_
          rw [Nat.zero_add, Nat.add_zero, hvk, hk]
        simp only [DynamicMatrix.push_col, if_neg h]
        refine ⟨Nat.succ_pos m.cols, ?_⟩
        show m.cols + 1 ∣ (DynamicMatrix.push_col_loop m.cols m.data v 0).length
        rw [hlen, hvk, hk]
        exact ⟨k, by ring⟩

/-- C3: starting from the empty matrix with a fixed column count `cols > 0`,
after any sequence of row/column appends (failed pushes leave the matrix
untouched, so this covers every sequence of successful operations, at every
prefix) the buffer length equals `rows() * cols()`. -/
theorem C3_shape_invariant {T : Type} (cols : Nat) (hc : 0 < cols)
    (ops : List (MatOp T)) :
    (applyOps (DynamicMatrix.new_with_cols cols) ops).data.length
      = (applyOps (DynamicMatrix.new_with_cols cols) ops).rows
        * (applyOps (DynamicMatrix.new_with_cols cols) ops).cols := by
  have key : ∀ (m : DynamicMatrix T), 0 < m.cols → m.cols ∣ m.data.length →
      0 < (applyOps m ops).cols ∧ (applyOps m ops).cols ∣ (applyOps m ops).data.length := by
    induction ops with
    | nil => intro m hm1 hm2; exact ⟨hm1, hm2⟩
    | cons op rest ih =>
        intro m hm1 hm2
        have hstep := applyOp_invariant m op hm1 hm2
        exact ih (applyOp m op) hstep.1 hstep.2
  obtain ⟨hpos, hdvd⟩ :=
    key (DynamicMatrix.new_with_cols cols) hc (dvd_zero cols)
  rw [DynamicMatrix.rows]
  exact (Nat.div_mul_cancel hdvd).symm

/-- C3 witness: the invariant at `cols = 3` after the concrete sequence
push_row `[1,2,3]` then push_col `[9]`. -/
theorem C3_witness :
    (applyOps (DynamicMatrix.new_with_cols 3) [MatOp.row [1, 2, 3], MatOp.col [9]]).data.length
      = (applyOps (DynamicMatrix.new_with_cols 3)
            [MatOp.row ([1, 2, 3] : List Nat), MatOp.col [9]]).rows
        * (applyOps (DynamicMatrix.new_with_cols 3)
            [MatOp.row ([1, 2, 3] : List Nat), MatOp.col [9]]).cols :=
  C3_shape_invariant 3 (by decide) [MatOp.row [1, 2, 3], MatOp.col [9]]

end DynMat
